import Mathlib

/-!
Verification development for the clickup_reminders repository.

The Python source is shallowly embedded: points in time are modelled as
whole minutes elapsed since an (arbitrary) reference Monday 00:00 in the
configured timezone, so `weekday`, `hour` and `minute` arithmetic of
Python `datetime` becomes plain `Nat` division/remainder; external
transports (the ClickUp REST API, Telegram, Twilio, the OpenAI oracle)
are modelled by `Except`/`Option`-valued inputs and by effect traces;
JSON payloads touched by the embedded logic are modelled as association
lists.  Every definition follows the corresponding function of `src/`.
-/

namespace ClickupReminders

/-- `datetime.weekday()`: 0 = Monday … 6 = Sunday, for a time measured in
minutes from the reference Monday 00:00. -/
def weekday (t : Nat) : Nat := t / 1440 % 7

/-- `datetime.hour` of the given instant. -/
def hourOf (t : Nat) : Nat := t / 60 % 24

/-- `datetime.minute` of the given instant. -/
def minuteOf (t : Nat) : Nat := t % 60

/-- `datetime.replace(hour=h, minute=m, second=0, microsecond=0)`: keep the
day, overwrite the time of day. -/
def setHourMinute (t : Nat) (h m : Nat) : Nat :=
  t - t % 1440 + (h * 60 + m)

/-- The five canonical status labels emitted by the classifier and consumed
by `update_task_in_clickup` (source spelling, Russian tokens). -/
def statusLabels : List String :=
  ["ВЫПОЛНЕНО", "НЕ_ВЫПОЛНЕНО", "В_РАБОТЕ", "ПЕРЕЗВОНИТЬ", "НЕЯСНО"]

/-! ## Completion ledger (`reminder_system.py` lines 240-271)

`completed_tasks.json` is a JSON object keyed by task id; we model it as an
association list `task_id ↦ name` (the stored `completed_at` timestamp is
never read back by the logic under verification). -/

/-- `ReminderSystem._is_task_completed`: membership of the task id in the
loaded completed-task dictionary. -/
def is_task_completed (ledger : List (String × String)) (taskId : String) : Bool :=
  ledger.any (fun p => p.1 == taskId)

/-- `ReminderSystem._mark_task_completed`: dictionary assignment
`completed_tasks[task_id] = \x7b"name": …, "completed_at": …\x7d` followed by a
save; inserting an id that is already present overwrites its value. -/
def mark_task_completed (ledger : List (String × String)) (taskId name : String) :
    List (String × String) :=
  (taskId, name) :: ledger.filter (fun p => p.1 ≠ taskId)

/-! ## Working-hours gate (`reminder_system.py` lines 310-339) -/

/-- Resolved working-hours configuration as read by `_is_working_hours`:
`working_days` (already resolved from `working_days`/`days`, possibly empty,
empty meaning "no day restriction") and start/end times already parsed by
`_parse_time_string` into hour/minute pairs. -/
structure WorkingHoursCfg where
  workingDays : List Nat
  startHour : Nat
  startMinute : Nat
  endHour : Nat
  endMinute : Nat
deriving Repr, DecidableEq

/-- `ReminderSystem._is_working_hours`: reject a non-working weekday when the
configured day list is non-empty, then require
`start_dt <= now < end_dt` on the current day (minute granularity). -/
def is_working_hours (cfg : WorkingHoursCfg) (now : Nat) : Bool :=
  if cfg.workingDays ≠ [] ∧ weekday now ∉ cfg.workingDays then
    false
  else
    let s := cfg.startHour * 60 + cfg.startMinute
    let e := cfg.endHour * 60 + cfg.endMinute
    decide (s ≤ now % 1440) && decide (now % 1440 < e)

/-! ## Due-task fetches (`reminder_system.py` lines 389-487,
`core/engine.py` lines 26-88, `telegram_reminder_service.py` 1198-1207) -/

/-- A raw ClickUp task payload, restricted to the fields the fetch filters
and the update logic read: `id`, `name`, `due_date` (absent or minutes; the
source reads epoch milliseconds), `status.type` and `description`. -/
structure RawTask where
  id : String
  name : String
  due_date : Option Nat
  statusType : String
  description : String
deriving Repr, DecidableEq

/-- `ReminderSystem.get_tasks_for_reminder`: the transport interaction
(walking spaces/folders/lists and collecting the tasks of every list named
like the reminders list, with `archived=false`, `subtasks=false`,
`include_closed=false`) is modelled by the `fetched` argument; an
`Except.error` stands for any exception raised during the fetch, which the
source catches, logs, and converts to the empty list.  A fetched task is kept
when it has a due date, the due date is at or before `now`, and its id is not
in the completion ledger. -/
def get_tasks_for_reminder (ledger : List (String × String))
    (fetched : Except String (List RawTask)) (now : Nat) : List RawTask :=
  match fetched with
  | .error _ => []
  | .ok tasks =>
      tasks.filter fun t =>
        match t.due_date with
        | none => false
        | some d => decide (d ≤ now) && !is_task_completed ledger t.id

/-- Normalized task as produced by `ClickUpEngine._normalize_task`,
restricted to the fields any modelled caller reads (the remaining fields —
status text, human-readable due date, assignee, url — are presentation
only). -/
structure ReminderTask where
  task_id : String
  name : String
deriving Repr, DecidableEq

/-- `ClickUpEngine._normalize_task`, restricted as above. -/
def normalize_task (t : RawTask) : ReminderTask :=
  { task_id := t.id, name := t.name }

/-- `ClickUpEngine.fetch_pending_reminders`: over the raw tasks returned by
the client, drop tasks whose tracker status type is `"closed"`, drop tasks
without a due date, drop tasks due strictly after `now`, and normalize the
rest.  The engine consults no completion ledger. -/
def fetch_pending_reminders (rawTasks : List RawTask) (now : Nat) :
    List ReminderTask :=
  (rawTasks.filter fun t =>
      t.statusType ≠ "closed" &&
        match t.due_date with
        | none => false
        | some d => decide (d ≤ now)).map normalize_task

/-- `TelegramReminderService.fetch_pending_tasks`: delegate to the engine;
any exception (including transport errors raised inside the engine's client
calls) is caught and converted to the empty list; a truthy `limit` truncates
the result (`pending[:limit]`). -/
def fetch_pending_tasks (engineResult : Except String (List ReminderTask))
    (limit : Option Nat) : List ReminderTask :=
  match engineResult with
  | .error _ => []
  | .ok pending =>
      match limit with
      | some n => if n ≠ 0 then pending.take n else pending
      | none => pending

/-! ## Task update (`reminder_system.py` lines 866-1007) -/

/-- The label-specific reminder interval of `update_task_in_clickup`, in
minutes: the source first resolves a configured default
(`reminder_settings.interval_hours`, default 2, or `reminder_intervals`
keyed by priority, default 3 — passed in here as `defaultMinutes`), then
overrides it to 1 hour for `В_РАБОТЕ` and to 0.5 hours for
`ПЕРЕЗВОНИТЬ`. -/
def interval_minutes (defaultMinutes : Nat) (status : String) : Nat :=
  if status = "В_РАБОТЕ" then 60
  else if status = "ПЕРЕЗВОНИТЬ" then 30
  else defaultMinutes

/-- The `while working_days and weekday not in working_days` loop of
`update_task_in_clickup`, advancing one day at a time.  The source loop
terminates exactly when some configured day is a real weekday (an element
below 7); since weekdays cycle with period 7, such a day is always reached
within 7 steps, so the scan is bounded by 7 here and agrees with the source
on every input where the source terminates. -/
def skip_non_working_days : Nat → List Nat → Nat → Nat
  | 0, _, t => t
  | fuel + 1, days, t =>
      if weekday t ∈ days then t else skip_non_working_days fuel days (t + 1440)

/-- The due-date rollover of `update_task_in_clickup` (lines 951-959): when
the hour of the computed reminder time is at or past the configured end
hour, replace the time of day with `start_hour:00`, add one day, and then
skip configured non-working days; otherwise keep the computed time.  Note
the source compares only `next_reminder.hour >= end_hour` — a computed time
before the start hour is not touched. -/
def rollover_due (workingDays : List Nat) (startHour endHour : Nat)
    (t : Nat) : Nat :=
  if endHour ≤ hourOf t then
    let t1 := setHourMinute t startHour 0 + 1440
    if workingDays = [] then t1 else skip_non_working_days 7 workingDays t1
  else t

/-- The body of the PUT request assembled by `update_task_in_clickup`:
always a new description; a tracker status when the label resolves through
the mapping (or the `ВЫПОЛНЕНО` fallback); a new due date for the four
non-done canonical labels. -/
structure UpdatePayload where
  description : String
  status : Option String
  due_date : Option Nat
deriving Repr, DecidableEq

/-- Observable side effects of `update_task_in_clickup`, in program order:
the completion-ledger write (`_mark_task_completed`), the tracker PUT, and
the outcome-dependent Telegram notification. -/
inductive UpdateEffect
  | ledgerWrite (taskId : String)
  | trackerPut (taskId : String) (payload : UpdatePayload)
  | notifyStatusUpdate (taskId : String)
  | notifyError (taskId : String)
deriving Repr, DecidableEq

/-- Result of one `update_task_in_clickup` call: the completion ledger
after the call and the ordered effect trace. -/
structure UpdateOutcome where
  ledger : List (String × String)
  effects : List UpdateEffect
deriving Repr, DecidableEq

/-- Stand-in for `now.strftime('%Y-%m-%d %H:%M:%S')` at the granularity of
the time model (day index and time of day). -/
def formatTimestamp (t : Nat) : String :=
  toString (t / 1440) ++ "d " ++ toString (hourOf t) ++ ":" ++ toString (minuteOf t)

/-- The history line `update_task_in_clickup` appends to the task
description. -/
def history_entry (now : Nat) (status : String) : String :=
  "\n\n---\n**" ++ formatTimestamp now ++ "** - Статус: " ++ status

/-- `ReminderSystem.update_task_in_clickup`.  Inputs: the status-label →
tracker-status mapping, the working-hours configuration read inside the
reschedule branch (`working_days` with default `[0,1,2,3,4]`, start/end
hours), the resolved default reminder interval, the current ledger, the
task id, the label, the task's name and current description from
`task_data`, the current time, and the outcome of the tracker PUT
(`putOk`, with which the source only chooses between the success and the
error notification).  Returns the new ledger and the effect trace.  The
call is a no-op when the id is already in the ledger; for `ВЫПОЛНЕНО` the
ledger is written before the PUT is issued; for the four other canonical
labels the due date is advanced and rolled over; for any other label only
the description is updated. -/
def update_task_in_clickup (statusMapping : List (String × String))
    (workingDays : List Nat) (startHour endHour : Nat)
    (defaultIntervalMinutes : Nat)
    (ledger : List (String × String))
    (taskId status taskName taskDescription : String)
    (now : Nat) (putOk : Bool) : UpdateOutcome :=
  if is_task_completed ledger taskId then
    { ledger := ledger, effects := [] }
  else
    let newDescription := taskDescription ++ history_entry now status
    let targetStatus : Option String :=
      match statusMapping.lookup status with
      | some s => some s
      | none => if status = "ВЫПОЛНЕНО" then some "complete" else none
    let dueDate : Option Nat :=
      if status ∈ ["НЕ_ВЫПОЛНЕНО", "В_РАБОТЕ", "НЕЯСНО", "ПЕРЕЗВОНИТЬ"] then
        some (rollover_due workingDays startHour endHour
          (now + interval_minutes defaultIntervalMinutes status))
      else none
    let payload : UpdatePayload :=
      { description := newDescription, status := targetStatus, due_date := dueDate }
    let ledgerAfter :=
      if status = "ВЫПОЛНЕНО" then mark_task_completed ledger taskId taskName
      else ledger
    { ledger := ledgerAfter,
      effects :=
        (if status = "ВЫПОЛНЕНО" then [UpdateEffect.ledgerWrite taskId] else [])
          ++ [UpdateEffect.trackerPut taskId payload]
          ++ [if putOk then UpdateEffect.notifyStatusUpdate taskId
              else UpdateEffect.notifyError taskId] }

/-! ## Response classifier (`reminder_system.py` lines 748-864) -/

/-- Python `str.upper()` restricted to the alphabets occurring in this
system: ASCII letters and the Russian alphabet (а–я and ё); every other
character is left unchanged. -/
def pyUpperChar (c : Char) : Char :=
  if 'a' ≤ c ∧ c ≤ 'z' then Char.ofNat (c.toNat - 32)
  else if 'а' ≤ c ∧ c ≤ 'я' then Char.ofNat (c.toNat - 32)
  else if c = 'ё' then 'Ё'
  else c

/-- Python `str.upper()` over the modelled alphabets. -/
def pyUpper (s : String) : String :=
  String.mk (s.toList.map pyUpperChar)

/-- Whitespace stripped by Python `str.strip()` (the whitespace characters
that can occur in the oracle outputs modelled here). -/
def isPySpace (c : Char) : Bool :=
  c = ' ' ∨ c = '\t' ∨ c = '\n' ∨ c = '\r'

/-- Python `str.strip()`: drop leading and trailing whitespace. -/
def pyStrip (s : String) : String :=
  String.mk (((s.toList.dropWhile isPySpace).reverse.dropWhile isPySpace).reverse)

/-- `ReminderSystem.analyze_response_with_ai`: the oracle round-trip
(`openai_client.chat.completions.create` with the fixed instruction prompt
built from the response text and the task name) is modelled by the
`oracle` argument; `Except.error` stands for any exception raised during
the call (timeout, auth failure, missing key, malformed response object),
which the source catches and converts to `НЕЯСНО`.  A successful oracle
reply is returned stripped and uppercased — the source performs no further
validation of the reply. -/
def analyze_response_with_ai (oracle : Except String String) : String :=
  match oracle with
  | .error _ => "НЕЯСНО"
  | .ok content => pyUpper (pyStrip content)

/-- Python `str.split(sep)` for a single-character separator, over the
character list of the string (`"a:b".split(":")`; an empty string yields
one empty chunk, like Python). -/
def split_on_char (sep : Char) : List Char → List (List Char)
  | [] => [[]]
  | c :: rest =>
      let r := split_on_char sep rest
      if c = sep then [] :: r
      else
        match r with
        | [] => [[c]]
        | h :: t => (c :: h) :: t

/-- One step of multi-character `str.split`: the chunk before the first
occurrence of `sep`, and the remainder after it when one occurs. -/
def take_until_sep (sep : List Char) : List Char → List Char × Option (List Char)
  | [] => ([], none)
  | c :: rest =>
      if (c :: rest).take sep.length = sep then ([], some ((c :: rest).drop sep.length))
      else
        let p := take_until_sep sep rest
        (c :: p.1, p.2)

/-- Python `str.split(sep)` for a non-empty multi-character separator,
fuelled by the input length (each found separator consumes at least one
character, so the fuel is never exhausted on the inputs used). -/
def split_on_list_aux (sep : List Char) : Nat → List Char → List (List Char)
  | 0, l => [l]
  | fuel + 1, l =>
      match take_until_sep sep l with
      | (pre, none) => [pre]
      | (pre, some rest) => pre :: split_on_list_aux sep fuel rest

/-- Python `str.split(sep)` for a non-empty multi-character separator. -/
def split_on_list (sep : List Char) (l : List Char) : List (List Char) :=
  split_on_list_aux sep l.length l

/-- The backquote character (spelled by code point). -/
def fenceChar : Char := Char.ofNat 96

/-- The three-backquote markdown fence. -/
def fenceSep : List Char := [fenceChar, fenceChar, fenceChar]

/-- The markdown-fence stripping of `analyze_batch_response` (lines
846-849): when the reply starts with a three-backquote fence, keep the part
between the first pair of fences (`result_text.split(...)[1]` in the
source), and then drop a leading `json` marker (four characters). -/
def strip_fences (s : String) : String :=
  let l := s.toList
  if l.take 3 = fenceSep then
    let t := (split_on_list fenceSep (l.drop 3)).headD []
    if t.take 4 = ['j', 's', 'o', 'n'] then String.mk (t.drop 4) else String.mk t
  else s

/-- `ReminderSystem.analyze_batch_response`.  `parse` stands for
`json.loads` restricted to the object-of-strings payloads the prompt
requests (any other payload or a parse error is `none`); `oracle` is the
oracle round-trip as in `analyze_response_with_ai`; `tasks` is the task
list as `(id, name)` pairs.  A successful parse is completed by assigning
`НЕЯСНО` to every listed task id missing from it; an oracle failure or a
parse failure yields `НЕЯСНО` for every listed task. -/
def analyze_batch_response (parse : String → Option (List (String × String)))
    (oracle : Except String String) (tasks : List (String × String)) :
    List (String × String) :=
  match oracle with
  | .error _ => tasks.map (fun t => (t.1, "НЕЯСНО"))
  | .ok content =>
      match parse (strip_fences (pyStrip content)) with
      | none => tasks.map (fun t => (t.1, "НЕЯСНО"))
      | some result =>
          tasks.foldl
            (fun acc t =>
              if (acc.lookup t.1).isSome then acc else acc ++ [(t.1, "НЕЯСНО")])
            result

/-! ## Orchestrator cycle (`reminder_system.py` lines 1440-1502) -/

/-- Observable effects of one `ReminderSystem.run` invocation, restricted
to what the gate claim is about: the due-task fetch, and one batched voice
call per recipient (`process_batch_tasks` places a single call covering all
of a recipient's tasks). -/
inductive RunEffect
  | fetch
  | voiceCall (phone : String) (taskCount : Nat)
deriving Repr, DecidableEq

/-- The grouping loop of `run`: tasks whose name yields no recipient are
skipped with a warning; the others are appended to their recipient's group
in encounter order. -/
def group_by_recipient (extractRecipient : String → Option String)
    (tasks : List RawTask) : List (String × List RawTask) :=
  tasks.foldl
    (fun acc t =>
      match extractRecipient t.name with
      | none => acc
      | some r =>
          if acc.any (fun g => g.1 == r) then
            acc.map (fun g => if g.1 == r then (g.1, g.2 ++ [t]) else g)
          else acc ++ [(r, [t])])
    []

/-- `ReminderSystem.run`.  `extractRecipient` models
`_extract_recipient_name` (configuration- and pattern-driven) and
`contactPhone` models `_get_contact_info` (the configured contacts table);
`fetched` is the tracker interaction as in `get_tasks_for_reminder`.
Without `force`, the invocation returns before fetching anything whenever
`_is_working_hours` is false; with `force` the gate is bypassed.  After the
gate: fetch, return if no tasks, otherwise group by recipient and place one
batched call per recipient that has contact info. -/
def run_cycle (cfg : WorkingHoursCfg)
    (extractRecipient : String → Option String)
    (contactPhone : String → Option String)
    (ledger : List (String × String))
    (fetched : Except String (List RawTask))
    (now : Nat) (force : Bool) : List RunEffect :=
  if !force && !is_working_hours cfg now then
    []
  else
    let tasks := get_tasks_for_reminder ledger fetched now
    if tasks.isEmpty then [RunEffect.fetch]
    else
      RunEffect.fetch ::
        (group_by_recipient extractRecipient tasks).filterMap
          (fun g => (contactPhone g.1).map (fun p => RunEffect.voiceCall p g.2.length))

/-! ## Callback reconciler (`telegram_reminder_service.py` lines 988-1115,
1687-1894) -/

/-- One line of the callback decision log, restricted to the fields the
deduplication logic reads back: the Telegram callback id (absent when the
update carried none), the task id, and the `result` marker (`success` or
`error`; the remaining audit fields — timestamp, action code, chat, actor —
are write-only for the logic under verification). -/
structure LogEntry where
  callback_id : Option String
  task_id : String
  result : String
deriving Repr, DecidableEq

/-- Python truthiness of the `callback_id` value (`if callback_id:`):
`None` and the empty string are falsy. -/
def truthy_id : Option String → Bool
  | none => false
  | some s => s ≠ ""

/-- Add an id to the processed-id set (`set.add`). -/
def insert_id (ids : List String) (cid : String) : List String :=
  if ids.contains cid then ids else cid :: ids

/-- The durable/in-memory state shared by the callback handlers: the
in-memory processed-id set, the decision log (one `LogEntry` per line of
the log file), and the trace of status applications performed so far —
one `(task_id, status_key)` pair per `update_clickup_status` /
`_postpone_task_due_date` invocation issued by `handle_callback`. -/
structure SvcState where
  processed_ids : List String
  callback_log : List LogEntry
  applied : List (String × String)
deriving Repr, DecidableEq

/-- `TelegramReminderService._load_processed_callback_ids`: collect the
`callback_id` of every `result=success` line with a truthy callback id
(unreadable files and unparseable lines are skipped; both are outside the
model, which receives the parsed entries). -/
def load_processed_callback_ids (entries : List LogEntry) : List String :=
  entries.foldl
    (fun acc e =>
      if e.result = "success" && truthy_id e.callback_id then
        insert_id acc (e.callback_id.getD "")
      else acc)
    []

/-- `TelegramReminderService._is_callback_processed`: falsy ids are never
considered processed; otherwise membership in the in-memory set. -/
def is_callback_processed (st : SvcState) (cid : Option String) : Bool :=
  match cid with
  | none => false
  | some s => if s = "" then false else st.processed_ids.contains s

/-- `TelegramReminderService._append_callback_log` with a configured log
path and a successful file write (the source silently skips the write when
the path is disabled and swallows write errors — both leave the id
unregistered and are modelled by `logEnabled = false`): append the entry,
and for a `result=success` entry with a truthy callback id also register
the id in the in-memory set. -/
def append_callback_log (logEnabled : Bool) (st : SvcState) (e : LogEntry) :
    SvcState :=
  if !logEnabled then st
  else
    let st1 := { st with callback_log := st.callback_log ++ [e] }
    if e.result = "success" && truthy_id e.callback_id then
      { st1 with processed_ids := insert_id st1.processed_ids (e.callback_id.getD "") }
    else st1

/-- The guard of `handle_callback` on the callback payload (lines
1700-1705): the data must start with `"s:"` and contain exactly two colons,
and is then split into the task id and the action code.  With `splitOn`,
exactly-two-colons is a three-element split, and the `"s:"` prefix makes
its first element `"s"`. -/
def parse_callback_data (data : String) : Option (String × String) :=
  match split_on_char ':' data.toList with
  | [s, taskId, code] =>
      if s = ['s'] then some (String.mk taskId, String.mk code) else none
  | _ => none

/-- One configured workflow action (`status_action_map` entry): the status
key passed to `update_clickup_status`, the optional operation marker, and
the postpone offset (converted to whole minutes; the source stores hours as
a float and the configured offsets are half-hour multiples). -/
structure CallbackAction where
  key : String
  operation : Option String
  postponeMinutes : Option Int
deriving Repr, DecidableEq

/-- `TelegramReminderService.handle_callback` on the happy transport path
(the ClickUp update and postpone calls succeed; `answer_callback`,
keyboard removal and chat notifications carry no state modelled here).
Before any side effect the handler consults `_is_callback_processed` and
returns unchanged for an already-processed id; an unparseable payload or an
unknown action code only answers the callback; otherwise the status update
or postpone is applied exactly once and one `result=success` log entry is
appended (which also registers the id). -/
def handle_callback (logEnabled : Bool)
    (actionMap : List (String × CallbackAction))
    (st : SvcState) (cid : Option String) (data : String) : SvcState :=
  if is_callback_processed st cid then st
  else
    match parse_callback_data data with
    | none => st
    | some (taskId, code) =>
        match actionMap.lookup code with
        | none => st
        | some action =>
            let st1 := { st with applied := st.applied ++ [(taskId, action.key)] }
            append_callback_log logEnabled st1
              { callback_id := cid, task_id := taskId, result := "success" }

/-- Number of `result=success` log entries carrying the given callback
id. -/
def count_success (log : List LogEntry) (cid : String) : Nat :=
  (log.filter (fun e => e.result = "success" && e.callback_id == some cid)).length

/-! ## Postpone (`telegram_reminder_service.py` lines 1843-1894) -/

/-- The fields of the fetched task payload that `_postpone_task_due_date`
reads: the current due date (absent, or minutes — the source reads epoch
milliseconds and folds a parse failure into `current_due = None`, modelled
as `none`), and the truthiness of the `due_date_time` field. -/
structure TaskDuePayload where
  due_date : Option Int
  has_due_time : Bool
deriving Repr, DecidableEq

/-- The PUT body assembled by `_postpone_task_due_date`. -/
structure DueUpdatePayload where
  due_date : Int
  due_date_time : Option Bool
deriving Repr, DecidableEq

/-- The external calls `_postpone_task_due_date` issues after fetching the
task, in program order (the audit comment is attempted best-effort; a
comment failure is swallowed). -/
inductive PostponeEffect
  | updateTask (payload : DueUpdatePayload)
  | addComment
deriving Repr, DecidableEq

/-- `TelegramReminderService._postpone_task_due_date`: reject a
non-positive offset; otherwise the new due date is the existing due date
plus the offset when the task has one (whether or not it lies in the past),
and the current time plus the offset when it has none; `due_date_time` is
forced true when the payload carried a truthy `due_date_time` or an
existing due date; then one task update and one best-effort audit comment
are issued.  No classifier is involved. -/
def postpone_task_due_date (payload : TaskDuePayload) (now : Int)
    (postponeMinutes : Int) : Except String (Int × List PostponeEffect) :=
  if postponeMinutes ≤ 0 then
    .error "postpone_hours must be positive"
  else
    let base_due := payload.due_date.getD now
    let new_due := base_due + postponeMinutes
    let body : DueUpdatePayload :=
      { due_date := new_due,
        due_date_time :=
          if payload.has_due_time || payload.due_date.isSome then some true
          else none }
    .ok (new_due, [PostponeEffect.updateTask body, PostponeEffect.addComment])

/-! ## Helper lemmas -/

/-- Membership in the filtered task list implies the filter predicate held,
in particular that the task id was not in the ledger. -/
theorem mem_get_tasks_not_completed {ledger : List (String × String)}
    {fetched : Except String (List RawTask)} {now : Nat} {t : RawTask}
    (ht : t ∈ get_tasks_for_reminder ledger fetched now) :
    is_task_completed ledger t.id = false := by
  cases fetched with
  | error e => simp [get_tasks_for_reminder] at ht
  | ok tasks =>
      simp only [get_tasks_for_reminder] at ht
      have hp := (List.mem_filter.mp ht).2
      cases hdue : t.due_date with
      | none => rw [hdue] at hp; simp at hp
      | some d =>
          rw [hdue] at hp
          exact (Bool.not_eq_true' _).mp (Bool.and_elim_right hp)

/-- Marking a task completed makes `is_task_completed` true for it. -/
theorem is_task_completed_mark (ledger : List (String × String))
    (taskId name : String) :
    is_task_completed (mark_task_completed ledger taskId name) taskId = true := by
  simp [is_task_completed, mark_task_completed]

/-- A successful lookup in the left part of an append survives the
append. -/
theorem lookup_append_left_val {l1 l2 : List (String × String)} {k v : String}
    (h : l1.lookup k = some v) : (l1 ++ l2).lookup k = some v := by
  induction l1 with
  | nil => simp [List.lookup] at h
  | cons p rest ih =>
      obtain ⟨pk, pv⟩ := p
      rw [List.cons_append]
      by_cases hk : k = pk
      · have hb : (k == pk) = true := beq_iff_eq.mpr hk
        simpa [List.lookup, hb] using h
      · have hb : (k == pk) = false := beq_eq_false_iff_ne.mpr hk
        simp only [List.lookup, hb] at h ⊢
        exact ih h

/-- A failed lookup in the left part of an append falls through to the
right part. -/
theorem lookup_append_none {l1 l2 : List (String × String)} {k : String}
    (h : l1.lookup k = none) : (l1 ++ l2).lookup k = l2.lookup k := by
  induction l1 with
  | nil => simp
  | cons p rest ih =>
      obtain ⟨pk, pv⟩ := p
      rw [List.cons_append]
      by_cases hk : k = pk
      · have hb : (k == pk) = true := beq_iff_eq.mpr hk
        simp [List.lookup, hb] at h
      · have hb : (k == pk) = false := beq_eq_false_iff_ne.mpr hk
        simp only [List.lookup, hb] at h ⊢
        exact ih h

/-- Looking up any listed key in the constant-value map of a task list
yields that constant. -/
theorem lookup_map_const {tasks : List (String × String)} {k c : String}
    (hk : k ∈ tasks.map Prod.fst) :
    (tasks.map (fun t => (t.1, c))).lookup k = some c := by
  induction tasks with
  | nil => simp at hk
  | cons t rest ih =>
      rw [List.map_cons] at hk
      rw [List.map_cons]
      by_cases hkt : k = t.1
      · have hb : (k == t.1) = true := beq_iff_eq.mpr hkt
        simp [List.lookup, hb]
      · have hb : (k == t.1) = false := beq_eq_false_iff_ne.mpr hkt
        simp only [List.lookup, hb]
        rcases List.mem_cons.mp hk with h | h
        · exact absurd h hkt
        · exact ih h

/-- The `НЕЯСНО`-filling fold of `analyze_batch_response` never changes an
existing binding. -/
theorem fill_preserves_val {tasks init : List (String × String)} {k v : String}
    (h : init.lookup k = some v) :
    ((tasks.foldl
        (fun acc t =>
          if (acc.lookup t.1).isSome then acc else acc ++ [(t.1, "НЕЯСНО")])
        init).lookup k) = some v := by
  induction tasks generalizing init with
  | nil => exact h
  | cons t rest ih =>
      rw [List.foldl_cons]
      apply ih
      cases hc : init.lookup t.1 with
      | some w => simpa [hc] using h
      | none =>
          simp only [hc, Option.isSome_none, Bool.false_eq_true, if_false]
          exact lookup_append_left_val h

/-- The `НЕЯСНО`-filling fold of `analyze_batch_response` binds every
listed key that the parsed result missed to `НЕЯСНО`. -/
theorem fill_default {tasks init : List (String × String)} {k : String}
    (hk : k ∈ tasks.map Prod.fst) (hnone : init.lookup k = none) :
    ((tasks.foldl
        (fun acc t =>
          if (acc.lookup t.1).isSome then acc else acc ++ [(t.1, "НЕЯСНО")])
        init).lookup k) = some "НЕЯСНО" := by
  induction tasks generalizing init with
  | nil => simp at hk
  | cons t rest ih =>
      rw [List.foldl_cons]
      by_cases hkt : k = t.1
      · subst hkt
        rw [hnone]
        simp only [Option.isSome_none, Bool.false_eq_true, if_false]
        apply fill_preserves_val
        rw [lookup_append_none hnone]
        simp [List.lookup]
      · have hk2 : k ∈ rest.map Prod.fst := by
          rw [List.map_cons] at hk
          rcases List.mem_cons.mp hk with h | h
          · exact absurd h hkt
          · exact h
        cases hc : init.lookup t.1 with
        | some w => simpa [hc] using ih hk2 hnone
        | none =>
            simp only [hc, Option.isSome_none, Bool.false_eq_true, if_false]
            apply ih hk2
            rw [lookup_append_none hnone]
            have hb : (k == t.1) = false := beq_eq_false_iff_ne.mpr hkt
            simp [List.lookup, hb]

/-- Adding one day advances the weekday cyclically. -/
theorem weekday_add_day (t : Nat) : weekday (t + 1440) = (weekday t + 1) % 7 := by
  unfold weekday; omega

/-- One unfolding step of the non-working-day scan. -/
theorem skip_step (fuel : Nat) (days : List Nat) (t : Nat) :
    skip_non_working_days (fuel + 1) days t
      = if weekday t ∈ days then t
        else skip_non_working_days fuel days (t + 1440) := rfl

/-- With Monday-Friday working days the scan lands on a working day, never
moves backwards, and preserves the time of day. -/
theorem skip_mon_fri (t : Nat) :
    weekday (skip_non_working_days 7 [0, 1, 2, 3, 4] t) ∈ ([0, 1, 2, 3, 4] : List Nat) ∧
    t ≤ skip_non_working_days 7 [0, 1, 2, 3, 4] t ∧
    skip_non_working_days 7 [0, 1, 2, 3, 4] t % 1440 = t % 1440 := by
  have hw : weekday t = 0 ∨ weekday t = 1 ∨ weekday t = 2 ∨ weekday t = 3 ∨
      weekday t = 4 ∨ weekday t = 5 ∨ weekday t = 6 := by unfold weekday; omega
  have h7 : (7 : Nat) = 6 + 1 := rfl
  rcases hw with hw | hw | hw | hw | hw | hw | hw
  · rw [h7, skip_step, if_pos (by simp [hw])]; exact ⟨by simp [hw], le_refl t, rfl⟩
  · rw [h7, skip_step, if_pos (by simp [hw])]; exact ⟨by simp [hw], le_refl t, rfl⟩
  · rw [h7, skip_step, if_pos (by simp [hw])]; exact ⟨by simp [hw], le_refl t, rfl⟩
  · rw [h7, skip_step, if_pos (by simp [hw])]; exact ⟨by simp [hw], le_refl t, rfl⟩
  · rw [h7, skip_step, if_pos (by simp [hw])]; exact ⟨by simp [hw], le_refl t, rfl⟩
  · have h1 : weekday (t + 1440) = 6 := by rw [weekday_add_day, hw]
    have h2 : weekday (t + 1440 + 1440) = 0 := by rw [weekday_add_day, h1]
    rw [h7, skip_step, if_neg (by simp [hw]),
        show (6 : Nat) = 5 + 1 from rfl, skip_step, if_neg (by simp [h1]),
        show (5 : Nat) = 4 + 1 from rfl, skip_step, if_pos (by simp [h2])]
    exact ⟨by simp [h2], by omega, by omega⟩
  · have h1 : weekday (t + 1440) = 0 := by rw [weekday_add_day, hw]
    rw [h7, skip_step, if_neg (by simp [hw]),
        show (6 : Nat) = 5 + 1 from rfl, skip_step, if_pos (by simp [h1])]
    exact ⟨by simp [h1], by omega, by omega⟩

/-- Behaviour of the due-date rollover with Monday-Friday working days: a
computed time whose hour is below the end hour is kept unchanged (even when
it lies before the start hour); a computed time at or past the end hour
moves strictly forward to the start hour (minute 0) of a working day. -/
theorem rollover_cases (sh eh t : Nat) (hsh : sh < 24) :
    (hourOf t < eh → rollover_due [0, 1, 2, 3, 4] sh eh t = t) ∧
    (eh ≤ hourOf t →
      hourOf (rollover_due [0, 1, 2, 3, 4] sh eh t) = sh ∧
      minuteOf (rollover_due [0, 1, 2, 3, 4] sh eh t) = 0 ∧
      weekday (rollover_due [0, 1, 2, 3, 4] sh eh t) ∈ ([0, 1, 2, 3, 4] : List Nat) ∧
      t < rollover_due [0, 1, 2, 3, 4] sh eh t) := by
  constructor
  · intro h
    unfold rollover_due
    rw [if_neg (by omega)]
  · intro h
    unfold rollover_due
    rw [if_pos h, if_neg (by simp)]
    obtain ⟨hwk, hle, hmod⟩ := skip_mon_fri (setHourMinute t sh 0 + 1440)
    refine ⟨?_, ?_, hwk, ?_⟩
    · unfold hourOf setHourMinute at *
      omega
    · unfold minuteOf setHourMinute at *
      omega
    · unfold setHourMinute at *
      omega

/-- Adding an id to the processed set makes the set contain it. -/
theorem insert_id_contains (ids : List String) (c : String) :
    (insert_id ids c).contains c = true := by
  unfold insert_id
  by_cases h : ids.contains c
  · rw [if_pos h]; exact h
  · rw [if_neg h]; simp

/-- Adding an id to the processed set preserves every id already in it. -/
theorem insert_id_contains_mono (ids : List String) (c d : String)
    (h : ids.contains c = true) : (insert_id ids d).contains c = true := by
  unfold insert_id
  by_cases hd : ids.contains d
  · rw [if_pos hd]; exact h
  · rw [if_neg hd]
    simp only [List.contains_cons]
    rw [h, Bool.or_true]

/-- The fold of `load_processed_callback_ids` preserves every id already
accumulated. -/
theorem load_fold_contains_mono (entries : List LogEntry) (init : List String)
    (c : String) (h : init.contains c = true) :
    (entries.foldl
        (fun acc e =>
          if e.result = "success" && truthy_id e.callback_id then
            insert_id acc (e.callback_id.getD "")
          else acc)
        init).contains c = true := by
  induction entries generalizing init with
  | nil => exact h
  | cons e rest ih =>
      rw [List.foldl_cons]
      apply ih
      split
      · exact insert_id_contains_mono init c _ h
      · exact h

/-- The fold of `load_processed_callback_ids` picks up the callback id of
every `result=success` entry with a truthy id. -/
theorem load_fold_contains (entries : List LogEntry) (init : List String)
    (e : LogEntry) (c : String) (hmem : e ∈ entries)
    (hres : e.result = "success") (hcid : e.callback_id = some c)
    (hc : c ≠ "") :
    (entries.foldl
        (fun acc e =>
          if e.result = "success" && truthy_id e.callback_id then
            insert_id acc (e.callback_id.getD "")
          else acc)
        init).contains c = true := by
  induction entries generalizing init with
  | nil => cases hmem
  | cons e' rest ih =>
      rw [List.foldl_cons]
      rcases List.mem_cons.mp hmem with he | he
      · subst he
        have hcond : (decide (e.result = "success") && truthy_id e.callback_id) = true := by
          simp [hres, truthy_id, hcid, hc]
        rw [if_pos hcond, hcid]
        exact load_fold_contains_mono rest _ c
          (by simpa using insert_id_contains init c)
      · exact ih _ he

/-- Priming the processed-id cache from the durable log recovers the id of
every successful entry. -/
theorem load_contains (entries : List LogEntry) (e : LogEntry) (c : String)
    (hmem : e ∈ entries) (hres : e.result = "success")
    (hcid : e.callback_id = some c) (hc : c ≠ "") :
    (load_processed_callback_ids entries).contains c = true := by
  unfold load_processed_callback_ids
  exact load_fold_contains entries [] e c hmem hres hcid hc

/-- The handler returns its state unchanged for an already-processed
callback id. -/
theorem handle_callback_processed_noop (logEnabled : Bool)
    (actionMap : List (String × CallbackAction)) (st : SvcState)
    (cid : Option String) (data : String)
    (h : is_callback_processed st cid = true) :
    handle_callback logEnabled actionMap st cid data = st := by
  unfold handle_callback
  rw [if_pos h]

/-- The first processing of a fresh, well-formed callback: one status
application, one `result=success` log entry, the id registered. -/
theorem handle_callback_fresh_step (actionMap : List (String × CallbackAction))
    (st : SvcState) (cid tid code data : String) (action : CallbackAction)
    (hparse : parse_callback_data data = some (tid, code))
    (hact : actionMap.lookup code = some action)
    (hcid : cid ≠ "")
    (hnew : is_callback_processed st (some cid) = false) :
    handle_callback true actionMap st (some cid) data
      = { processed_ids := insert_id st.processed_ids cid,
          callback_log := st.callback_log ++ [⟨some cid, tid, "success"⟩],
          applied := st.applied ++ [(tid, action.key)] } := by
  unfold handle_callback
  rw [if_neg (by simp [hnew]), hparse]
  simp only [hact]
  unfold append_callback_log
  simp [truthy_id, hcid]

/-! ## Claims -/

/-- C7: for every transport error raised while fetching due tasks, both
`get_tasks_for_reminder` and `fetch_pending_tasks` catch it and return the
empty task list to their caller (the cycle is never aborted by a tracker
failure; as total functions the embeddings cannot propagate an
exception). -/
theorem fetch_transport_error_empty :
    (∀ (ledger : List (String × String)) (e : String) (now : Nat),
        get_tasks_for_reminder ledger (Except.error e) now = []) ∧
    (∀ (e : String) (limit : Option Nat),
        fetch_pending_tasks (Except.error e) limit = []) := by
  exact ⟨fun _ _ _ => rfl, fun _ _ => rfl⟩

/-- C2 counterexample: a task whose id is in the completion ledger, but
which is open in the tracker and overdue, appears in the list returned by
`ClickUpEngine.fetch_pending_reminders` — that fetch does not consult the
ledger, so the claim that every fetch of due tasks excludes ledgered ids is
false. -/
theorem fetch_pending_reminders_ignores_ledger_cx :
    is_task_completed [("t1", "task one")] "t1" = true ∧
      fetch_pending_reminders
          [{ id := "t1", name := "task one", due_date := some 100,
             statusType := "open", description := "" }] 200
        = [{ task_id := "t1", name := "task one" }] := by
  exact ⟨by decide, by decide⟩

/-- C2 (amended): the reminder-system fetch `get_tasks_for_reminder`
consults the completion ledger and never returns a task whose id is
ledgered; the engine fetch `fetch_pending_reminders` does not take the
ledger at all and filters only by closed tracker status and due date. -/
theorem get_tasks_for_reminder_excludes_ledgered
    (ledger : List (String × String)) (fetched : Except String (List RawTask))
    (now : Nat) (t : RawTask)
    (ht : t ∈ get_tasks_for_reminder ledger fetched now) :
    is_task_completed ledger t.id = false :=
  mem_get_tasks_not_completed ht

/-- C2 witness: the amended theorem applied at a concrete fetch. -/
theorem get_tasks_for_reminder_excludes_ledgered_witness :
    is_task_completed [("t2", "other")]
      (RawTask.mk "t1" "task one" (some 100) "open" "").id = false :=
  get_tasks_for_reminder_excludes_ledgered [("t2", "other")]
    (Except.ok [RawTask.mk "t1" "task one" (some 100) "open" ""]) 200
    (RawTask.mk "t1" "task one" (some 100) "open" "") (by decide)

/-- C3 counterexample: an oracle reply that is not one of the five label
tokens is returned verbatim (stripped and uppercased), not mapped to
`НЕЯСНО` — so the claim that every classifier result is a member of the
five-label enumeration is false. -/
theorem analyze_response_nonlabel_cx :
    analyze_response_with_ai (Except.ok "не знаю") = "НЕ ЗНАЮ" ∧
      "НЕ ЗНАЮ" ∉ statusLabels := by
  exact ⟨by decide, by decide⟩

/-- C3 (amended): the classifier is total and never raises; any
oracle-unavailable condition or parse failure (any exception during the
oracle call) maps to `НЕЯСНО`; an oracle reply that is exactly one of the
five label tokens is returned as that token; but any other reply is
returned verbatim after stripping and uppercasing, not mapped to
`НЕЯСНО`. -/
theorem analyze_response_fallback_amended :
    (∀ e : String, analyze_response_with_ai (Except.error e) = "НЕЯСНО") ∧
    (∀ l : String, l ∈ statusLabels → analyze_response_with_ai (Except.ok l) = l) ∧
    (∀ s : String, analyze_response_with_ai (Except.ok s) = pyUpper (pyStrip s)) := by
  refine ⟨fun _ => rfl, ?_, fun _ => rfl⟩
  intro l hl
  fin_cases hl <;> decide

/-- C3 witness: the amended theorem applied at a concrete label token and
a concrete oracle failure. -/
theorem analyze_response_fallback_amended_witness :
    analyze_response_with_ai (Except.ok "ВЫПОЛНЕНО") = "ВЫПОЛНЕНО" :=
  analyze_response_fallback_amended.2.1 "ВЫПОЛНЕНО" (by decide)

/-- C9: when `ВЫПОЛНЕНО` is applied to a not-yet-ledgered task, the
completion ledger is written before the tracker PUT is issued (the effect
trace starts with the ledger write, then the PUT) and unconditionally on
the PUT outcome (`putOk` quantified); the task is therefore recorded as
completed even when the PUT fails, and is excluded from every future
`get_tasks_for_reminder` cycle. -/
theorem done_ledger_before_put (statusMapping : List (String × String))
    (workingDays : List Nat) (startHour endHour defaultIv : Nat)
    (ledger : List (String × String)) (taskId taskName taskDesc : String)
    (now : Nat) (hfresh : is_task_completed ledger taskId = false) :
    ∀ putOk : Bool,
      (update_task_in_clickup statusMapping workingDays startHour endHour
          defaultIv ledger taskId "ВЫПОЛНЕНО" taskName taskDesc now putOk).ledger
        = mark_task_completed ledger taskId taskName ∧
      is_task_completed
        (update_task_in_clickup statusMapping workingDays startHour endHour
          defaultIv ledger taskId "ВЫПОЛНЕНО" taskName taskDesc now putOk).ledger
        taskId = true ∧
      (∃ payload,
        (update_task_in_clickup statusMapping workingDays startHour endHour
            defaultIv ledger taskId "ВЫПОЛНЕНО" taskName taskDesc now putOk).effects
          = [UpdateEffect.ledgerWrite taskId,
             UpdateEffect.trackerPut taskId payload,
             if putOk then UpdateEffect.notifyStatusUpdate taskId
             else UpdateEffect.notifyError taskId]) ∧
      (∀ (fetched : Except String (List RawTask)) (now2 : Nat) (t : RawTask),
          t ∈ get_tasks_for_reminder
            (update_task_in_clickup statusMapping workingDays startHour endHour
              defaultIv ledger taskId "ВЫПОЛНЕНО" taskName taskDesc now putOk).ledger
            fetched now2 → t.id ≠ taskId) := by
  intro putOk
  have hledger :
      (update_task_in_clickup statusMapping workingDays startHour endHour
          defaultIv ledger taskId "ВЫПОЛНЕНО" taskName taskDesc now putOk).ledger
        = mark_task_completed ledger taskId taskName := by
    simp [update_task_in_clickup, hfresh]
  refine ⟨hledger, ?_, ?_, ?_⟩
  · rw [hledger]; exact is_task_completed_mark ledger taskId taskName
  · cases hmap : statusMapping.lookup "ВЫПОЛНЕНО" with
    | none =>
        exact ⟨{ description := taskDesc ++ history_entry now "ВЫПОЛНЕНО",
                 status := some "complete", due_date := none },
               by simp [update_task_in_clickup, hfresh, hmap]⟩
    | some s =>
        exact ⟨{ description := taskDesc ++ history_entry now "ВЫПОЛНЕНО",
                 status := some s, due_date := none },
               by simp [update_task_in_clickup, hfresh, hmap]⟩
  · intro fetched now2 t hmem heq
    have h2 := mem_get_tasks_not_completed hmem
    rw [heq, hledger, is_task_completed_mark] at h2
    cases h2

/-- C9 witness: the theorem applied with a failing PUT at a concrete
task. -/
theorem done_ledger_before_put_witness :
    (update_task_in_clickup [] [0, 1, 2, 3, 4] 10 18 120 [] "t1" "ВЫПОЛНЕНО"
        "task one" "" 100 false).ledger
      = mark_task_completed [] "t1" "task one" ∧
    is_task_completed
      (update_task_in_clickup [] [0, 1, 2, 3, 4] 10 18 120 [] "t1" "ВЫПОЛНЕНО"
          "task one" "" 100 false).ledger "t1" = true ∧
    (∃ payload,
      (update_task_in_clickup [] [0, 1, 2, 3, 4] 10 18 120 [] "t1" "ВЫПОЛНЕНО"
          "task one" "" 100 false).effects
        = [UpdateEffect.ledgerWrite "t1", UpdateEffect.trackerPut "t1" payload,
           if false then UpdateEffect.notifyStatusUpdate "t1"
           else UpdateEffect.notifyError "t1"]) ∧
    (∀ (fetched : Except String (List RawTask)) (now2 : Nat) (t : RawTask),
        t ∈ get_tasks_for_reminder
          (update_task_in_clickup [] [0, 1, 2, 3, 4] 10 18 120 [] "t1" "ВЫПОЛНЕНО"
            "task one" "" 100 false).ledger fetched now2 → t.id ≠ "t1") :=
  done_ledger_before_put [] [0, 1, 2, 3, 4] 10 18 120 [] "t1" "task one" ""
    100 (by decide) false

/-- C10: applying a status outside the five canonical labels and absent
from the configured mapping leaves the tracker status and the due date
untouched (neither field appears in the PUT body) and writes no completion
record: the only modified field is the description, to which the history
entry is appended. -/
theorem unknown_status_frame (statusMapping : List (String × String))
    (workingDays : List Nat) (startHour endHour defaultIv : Nat)
    (ledger : List (String × String)) (taskId status taskName taskDesc : String)
    (now : Nat) (hfresh : is_task_completed ledger taskId = false)
    (hmap : statusMapping.lookup status = none)
    (hfive : status ∉ statusLabels) :
    ∀ putOk : Bool,
      (update_task_in_clickup statusMapping workingDays startHour endHour
          defaultIv ledger taskId status taskName taskDesc now putOk).ledger
        = ledger ∧
      (update_task_in_clickup statusMapping workingDays startHour endHour
          defaultIv ledger taskId status taskName taskDesc now putOk).effects
        = [UpdateEffect.trackerPut taskId
            { description := taskDesc ++ history_entry now status,
              status := none, due_date := none },
           if putOk then UpdateEffect.notifyStatusUpdate taskId
           else UpdateEffect.notifyError taskId] := by
  obtain ⟨h1, h2, h3, h4, h5⟩ :
      status ≠ "ВЫПОЛНЕНО" ∧ status ≠ "НЕ_ВЫПОЛНЕНО" ∧ status ≠ "В_РАБОТЕ" ∧
        status ≠ "ПЕРЕЗВОНИТЬ" ∧ status ≠ "НЕЯСНО" := by
    simpa [statusLabels] using hfive
  intro putOk
  constructor
  · simp [update_task_in_clickup, hfresh, h1]
  · simp [update_task_in_clickup, hfresh, hmap, h1, h2, h3, h4, h5]

/-- C10 witness: the theorem applied at a concrete unmapped status. -/
theorem unknown_status_frame_witness :
    (update_task_in_clickup [] [0, 1, 2, 3, 4] 10 18 120 [] "t1" "ЧУЖОЙ"
        "task one" "old" 100 true).ledger = [] ∧
    (update_task_in_clickup [] [0, 1, 2, 3, 4] 10 18 120 [] "t1" "ЧУЖОЙ"
        "task one" "old" 100 true).effects
      = [UpdateEffect.trackerPut "t1"
          { description := "old" ++ history_entry 100 "ЧУЖОЙ",
            status := none, due_date := none },
         if true then UpdateEffect.notifyStatusUpdate "t1"
         else UpdateEffect.notifyError "t1"] :=
  unknown_status_frame [] [0, 1, 2, 3, 4] 10 18 120 [] "t1" "ЧУЖОЙ" "task one"
    "old" 100 (by decide) (by decide) (by decide) true

/-- C4 counterexample: for a task whose existing due date lies in the past
(due at minute 9400, now 10000, offset 60), the postpone writes back
`existing_due + offset = 9460` — still in the past — and not
`max(existing_due, now) + offset = 10060`, so the claimed
`max(existing_due, now) + offset` formula is false on the code. -/
theorem postpone_due_not_max_cx :
    postpone_task_due_date ⟨some 9400, true⟩ 10000 60
      = Except.ok (9460,
          [PostponeEffect.updateTask ⟨9460, some true⟩, PostponeEffect.addComment]) ∧
    (9460 : Int) ≠ max 9400 10000 + 60 := by
  exact ⟨rfl, by decide⟩

/-- C4 (amended): for every postpone with positive offset, the new due
date written back equals the task's existing due date plus the offset when
the task has one — even when that existing due date lies in the past — and
`now` plus the offset when it has none; the write is followed by one
best-effort audit comment, and the classifier is not invoked (the effect
trace is exactly the task update and the comment). -/
theorem postpone_due_adds_offset_amended (payload : TaskDuePayload) (now : Int)
    (m : Int) (hm : 0 < m) :
    postpone_task_due_date payload now m
      = Except.ok (payload.due_date.getD now + m,
          [PostponeEffect.updateTask
             { due_date := payload.due_date.getD now + m,
               due_date_time :=
                 if payload.has_due_time || payload.due_date.isSome then some true
                 else none },
           PostponeEffect.addComment]) := by
  unfold postpone_task_due_date
  rw [if_neg (by omega)]

/-- C4 witness: the amended theorem applied to a task without an existing
due date. -/
theorem postpone_due_adds_offset_amended_witness :
    postpone_task_due_date ⟨none, false⟩ 100 60
      = Except.ok ((100 : Int) + 60,
          [PostponeEffect.updateTask
             { due_date := (100 : Int) + 60,
               due_date_time :=
                 if ((false : Bool) || (none : Option Int).isSome) then some true
                 else none },
           PostponeEffect.addComment]) :=
  postpone_due_adds_offset_amended ⟨none, false⟩ 100 60 (by decide)

/-- C8: when the top-level `run` is invoked without the force flag at a
time where `_is_working_hours` is false (outside the start/end window or on
a non-working day), the cycle performs no work at all — no fetch, no calls,
an empty effect trace; with the force flag the gate is bypassed and the
fetch happens first regardless of the current time. -/
theorem run_gate_blocks_outside_hours :
    (∀ (cfg : WorkingHoursCfg)
        (extractRecipient contactPhone : String → Option String)
        (ledger : List (String × String)) (fetched : Except String (List RawTask))
        (now : Nat),
        is_working_hours cfg now = false →
        run_cycle cfg extractRecipient contactPhone ledger fetched now false = []) ∧
    (∀ (cfg : WorkingHoursCfg)
        (extractRecipient contactPhone : String → Option String)
        (ledger : List (String × String)) (fetched : Except String (List RawTask))
        (now : Nat),
        (run_cycle cfg extractRecipient contactPhone ledger fetched now true).head?
          = some RunEffect.fetch) := by
  constructor
  · intro cfg er cp ledger fetched now h
    simp [run_cycle, h]
  · intro cfg er cp ledger fetched now
    cases h : (get_tasks_for_reminder ledger fetched now).isEmpty <;>
      simp [run_cycle, h]

/-- C8 witness: the gate conjunct applied on a Saturday noon with Mon-Fri
10:00-18:00 working hours, and the force conjunct at the same instant. -/
theorem run_gate_blocks_outside_hours_witness :
    run_cycle ⟨[0, 1, 2, 3, 4], 10, 0, 18, 0⟩ (fun _ => none) (fun _ => none)
        [] (Except.ok []) 7920 false = [] ∧
    (run_cycle ⟨[0, 1, 2, 3, 4], 10, 0, 18, 0⟩ (fun _ => none) (fun _ => none)
        [] (Except.ok []) 7920 true).head? = some RunEffect.fetch :=
  ⟨run_gate_blocks_outside_hours.1 ⟨[0, 1, 2, 3, 4], 10, 0, 18, 0⟩
      (fun _ => none) (fun _ => none) [] (Except.ok []) 7920 (by decide),
   run_gate_blocks_outside_hours.2 ⟨[0, 1, 2, 3, 4], 10, 0, 18, 0⟩
      (fun _ => none) (fun _ => none) [] (Except.ok []) 7920⟩

/-- C6: the batch classifier assigns a label to every listed task id for
every parse function, oracle outcome and task list; an oracle failure or a
parse failure yields `НЕЯСНО` for every listed task; a listed id missing
from the parsed oracle output defaults to `НЕЯСНО`; and a payload wrapped
in a json markdown fence is unwrapped to the literal payload before
parsing. -/
theorem analyze_batch_total :
    (∀ (parse : String → Option (List (String × String)))
        (oracle : Except String String) (tasks : List (String × String))
        (t : String × String), t ∈ tasks →
        ((analyze_batch_response parse oracle tasks).lookup t.1).isSome = true) ∧
    (∀ (parse : String → Option (List (String × String))) (e : String)
        (tasks : List (String × String)),
        analyze_batch_response parse (Except.error e) tasks
          = tasks.map (fun t => (t.1, "НЕЯСНО"))) ∧
    (∀ (parse : String → Option (List (String × String))) (content : String)
        (tasks : List (String × String)),
        parse (strip_fences (pyStrip content)) = none →
        analyze_batch_response parse (Except.ok content) tasks
          = tasks.map (fun t => (t.1, "НЕЯСНО"))) ∧
    (∀ (parse : String → Option (List (String × String))) (content : String)
        (tasks : List (String × String)) (t : String × String)
        (r : List (String × String)), t ∈ tasks →
        parse (strip_fences (pyStrip content)) = some r →
        r.lookup t.1 = none →
        (analyze_batch_response parse (Except.ok content) tasks).lookup t.1
          = some "НЕЯСНО") ∧
    strip_fences "\x60\x60\x60json\x7b\"t1\": \"ВЫПОЛНЕНО\"\x7d\x60\x60\x60"
      = "\x7b\"t1\": \"ВЫПОЛНЕНО\"\x7d" := by
  refine ⟨?_, fun _ _ _ => rfl, ?_, ?_, by decide⟩
  · intro parse oracle tasks t ht
    have hkey : t.1 ∈ tasks.map Prod.fst := List.mem_map_of_mem Prod.fst ht
    cases oracle with
    | error e =>
        simp only [analyze_batch_response]
        rw [lookup_map_const hkey]
        rfl
    | ok content =>
        simp only [analyze_batch_response]
        cases hp : parse (strip_fences (pyStrip content)) with
        | none =>
            rw [lookup_map_const hkey]
            rfl
        | some r =>
            cases hr : r.lookup t.1 with
            | some v => rw [fill_preserves_val hr]; rfl
            | none => rw [fill_default hkey hr]; rfl
  · intro parse content tasks hp
    simp [analyze_batch_response, hp]
  · intro parse content tasks t r ht hp hr
    simp only [analyze_batch_response, hp]
    exact fill_default (List.mem_map_of_mem Prod.fst ht) hr

/-- C6 witness: the totality conjunct applied to a parse function that
returns labels for only two of three listed tasks. -/
theorem analyze_batch_total_witness :
    ((analyze_batch_response
        (fun _ => some [("t1", "ВЫПОЛНЕНО"), ("t2", "В_РАБОТЕ")])
        (Except.ok "\x7b…\x7d") [("t1", "a"), ("t2", "b"), ("t3", "c")]).lookup
        ("t3", "c").1).isSome = true :=
  analyze_batch_total.1 (fun _ => some [("t1", "ВЫПОЛНЕНО"), ("t2", "В_РАБОТЕ")])
    (Except.ok "\x7b…\x7d") [("t1", "a"), ("t2", "b"), ("t3", "c")] ("t3", "c")
    (by decide)

/-- C5 counterexample: with working hours 10:00-18:00 (Mon-Fri) and default
interval 2h, a `НЕ_ВЫПОЛНЕНО` update at Monday 06:00 (minute 360) computes
Monday 08:00 (minute 480) and writes it back unchanged — hour 8 is outside
the working window (before the 10:00 start) yet not clamped to the next
working day's start hour, so the claim that every out-of-window computed
time is clamped is false. -/
theorem reschedule_before_start_not_clamped_cx :
    (update_task_in_clickup [] [0, 1, 2, 3, 4] 10 18 120 [] "t1" "НЕ_ВЫПОЛНЕНО"
        "n" "d" 360 true).effects
      = [UpdateEffect.trackerPut "t1"
          { description := "d" ++ history_entry 360 "НЕ_ВЫПОЛНЕНО",
            status := none, due_date := some 480 },
         UpdateEffect.notifyStatusUpdate "t1"] ∧
    hourOf 480 = 8 ∧ 8 < 10 := by
  exact ⟨by decide, by decide, by decide⟩

/-- C5 (amended): for the four non-done labels the rescheduled due date is
`now` plus the label interval (`В_РАБОТЕ` 1h, `ПЕРЕЗВОНИТЬ` 0.5h, others
the configured default); the rollover fires only when the computed time's
hour is at or past the end hour — a computed time before the start hour is
written back unchanged — and when it fires it lands strictly later, at the
start hour (minute 0) of a working day, skipping non-working days (working
days fixed to Mon-Fri here as in the spec's example); the Friday 17:30 with
10:00-18:00 example lands on Monday 10:00. -/
theorem reschedule_rollover_amended (statusMapping : List (String × String))
    (startHour endHour defaultIv : Nat) (ledger : List (String × String))
    (taskId status taskName taskDesc : String) (now : Nat)
    (hfresh : is_task_completed ledger taskId = false)
    (hstat : status ∈ ["НЕ_ВЫПОЛНЕНО", "В_РАБОТЕ", "НЕЯСНО", "ПЕРЕЗВОНИТЬ"])
    (hsh : startHour < 24) :
    ∀ putOk : Bool,
      (∃ targetStatus,
        (update_task_in_clickup statusMapping [0, 1, 2, 3, 4] startHour endHour
            defaultIv ledger taskId status taskName taskDesc now putOk).effects
          = [UpdateEffect.trackerPut taskId
              { description := taskDesc ++ history_entry now status,
                status := targetStatus,
                due_date := some (rollover_due [0, 1, 2, 3, 4] startHour endHour
                  (now + interval_minutes defaultIv status)) },
             if putOk then UpdateEffect.notifyStatusUpdate taskId
             else UpdateEffect.notifyError taskId]) ∧
      (interval_minutes defaultIv "В_РАБОТЕ" = 60 ∧
        interval_minutes defaultIv "ПЕРЕЗВОНИТЬ" = 30 ∧
        (status ≠ "В_РАБОТЕ" → status ≠ "ПЕРЕЗВОНИТЬ" →
          interval_minutes defaultIv status = defaultIv)) ∧
      (hourOf (now + interval_minutes defaultIv status) < endHour →
        rollover_due [0, 1, 2, 3, 4] startHour endHour
            (now + interval_minutes defaultIv status)
          = now + interval_minutes defaultIv status) ∧
      (endHour ≤ hourOf (now + interval_minutes defaultIv status) →
        hourOf (rollover_due [0, 1, 2, 3, 4] startHour endHour
            (now + interval_minutes defaultIv status)) = startHour ∧
        minuteOf (rollover_due [0, 1, 2, 3, 4] startHour endHour
            (now + interval_minutes defaultIv status)) = 0 ∧
        weekday (rollover_due [0, 1, 2, 3, 4] startHour endHour
            (now + interval_minutes defaultIv status)) ∈ ([0, 1, 2, 3, 4] : List Nat) ∧
        now + interval_minutes defaultIv status
          < rollover_due [0, 1, 2, 3, 4] startHour endHour
              (now + interval_minutes defaultIv status)) ∧
      ((update_task_in_clickup [] [0, 1, 2, 3, 4] 10 18 120 [] "t1"
          "НЕ_ВЫПОЛНЕНО" "n" "d" 6810 true).effects
        = [UpdateEffect.trackerPut "t1"
            { description := "d" ++ history_entry 6810 "НЕ_ВЫПОЛНЕНО",
              status := none, due_date := some 10680 },
           UpdateEffect.notifyStatusUpdate "t1"] ∧
        weekday 6810 = 4 ∧ hourOf 6810 = 17 ∧ minuteOf 6810 = 30 ∧
        weekday 10680 = 0 ∧ hourOf 10680 = 10 ∧ minuteOf 10680 = 0) := by
  intro putOk
  refine ⟨?_, ⟨rfl, rfl, ?_⟩,
    (rollover_cases startHour endHour (now + interval_minutes defaultIv status) hsh).1,
    (rollover_cases startHour endHour (now + interval_minutes defaultIv status) hsh).2,
    by decide, by decide, by decide, by decide, by decide, by decide, by decide⟩
  · fin_cases hstat
    · cases hmap : statusMapping.lookup "НЕ_ВЫПОЛНЕНО" with
      | none => exact ⟨none, by simp [update_task_in_clickup, hfresh, hmap]⟩
      | some s => exact ⟨some s, by simp [update_task_in_clickup, hfresh, hmap]⟩
    · cases hmap : statusMapping.lookup "В_РАБОТЕ" with
      | none => exact ⟨none, by simp [update_task_in_clickup, hfresh, hmap]⟩
      | some s => exact ⟨some s, by simp [update_task_in_clickup, hfresh, hmap]⟩
    · cases hmap : statusMapping.lookup "НЕЯСНО" with
      | none => exact ⟨none, by simp [update_task_in_clickup, hfresh, hmap]⟩
      | some s => exact ⟨some s, by simp [update_task_in_clickup, hfresh, hmap]⟩
    · cases hmap : statusMapping.lookup "ПЕРЕЗВОНИТЬ" with
      | none => exact ⟨none, by simp [update_task_in_clickup, hfresh, hmap]⟩
      | some s => exact ⟨some s, by simp [update_task_in_clickup, hfresh, hmap]⟩
  · intro h1 h2
    unfold interval_minutes
    rw [if_neg h1, if_neg h2]

/-- C5 witness: the amended theorem applied at the Friday 17:30 instant
with a `В_РАБОТЕ` label. -/
theorem reschedule_rollover_amended_witness :
    ∃ targetStatus,
      (update_task_in_clickup [] [0, 1, 2, 3, 4] 10 18 120 [] "t1" "В_РАБОТЕ"
          "n" "d" 6810 true).effects
        = [UpdateEffect.trackerPut "t1"
            { description := "d" ++ history_entry 6810 "В_РАБОТЕ",
              status := targetStatus,
              due_date := some (rollover_due [0, 1, 2, 3, 4] 10 18
                (6810 + interval_minutes 120 "В_РАБОТЕ")) },
           UpdateEffect.notifyStatusUpdate "t1"] :=
  (reschedule_rollover_amended [] 10 18 120 [] "t1" "В_РАБОТЕ" "n" "d" 6810
      (by decide) (by decide) (by decide) true).1

/-- C1: replaying `handle_callback` with the same callback id any number
of times (n ≥ 1), starting from a state where the id is not yet processed
and the log has no success entry for it, performs exactly one
status-application side effect and leaves exactly one `result=success` log
entry for that id; the id is registered as processed; a restart that
re-primes the in-memory cache from the durable log still considers the id
processed; and the handler is a strict no-op on any state that already has
the id processed (checked before any side effect). -/
theorem handle_callback_replay_at_most_once
    (actionMap : List (String × CallbackAction)) (st : SvcState)
    (cid tid code data : String) (action : CallbackAction) (n : Nat)
    (hparse : parse_callback_data data = some (tid, code))
    (hact : actionMap.lookup code = some action)
    (hcid : cid ≠ "")
    (hnew : is_callback_processed st (some cid) = false)
    (hlog : count_success st.callback_log cid = 0)
    (hn : 1 ≤ n) :
    ((fun s => handle_callback true actionMap s (some cid) data)^[n] st).applied.length
        = st.applied.length + 1 ∧
    count_success
        ((fun s => handle_callback true actionMap s (some cid) data)^[n] st).callback_log
        cid = 1 ∧
    is_callback_processed
        ((fun s => handle_callback true actionMap s (some cid) data)^[n] st)
        (some cid) = true ∧
    is_callback_processed
        { processed_ids := load_processed_callback_ids
            ((fun s => handle_callback true actionMap s (some cid) data)^[n] st).callback_log,
          callback_log :=
            ((fun s => handle_callback true actionMap s (some cid) data)^[n] st).callback_log,
          applied :=
            ((fun s => handle_callback true actionMap s (some cid) data)^[n] st).applied }
        (some cid) = true ∧
    (∀ s : SvcState, is_callback_processed s (some cid) = true →
        handle_callback true actionMap s (some cid) data = s) := by
  obtain ⟨k, rfl⟩ : ∃ k, n = k + 1 := ⟨n - 1, by omega⟩
  rw [Function.iterate_succ_apply]
  have hstep := handle_callback_fresh_step actionMap st cid tid code data action
    hparse hact hcid hnew
  have hproc : is_callback_processed
      (handle_callback true actionMap st (some cid) data) (some cid) = true := by
    rw [hstep]
    simp only [is_callback_processed]
    rw [if_neg (by simp [hcid])]
    exact insert_id_contains st.processed_ids cid
  have hiter : ∀ (m : Nat) (s : SvcState), is_callback_processed s (some cid) = true →
      (fun s => handle_callback true actionMap s (some cid) data)^[m] s = s := by
    intro m
    induction m with
    | zero => intro s _; rfl
    | succ m ih =>
        intro s hs
        rw [Function.iterate_succ_apply,
            handle_callback_processed_noop true actionMap s (some cid) data hs]
        exact ih s hs
  rw [hiter k _ hproc]
  refine ⟨?_, ?_, hproc, ?_,
    fun s hs => handle_callback_processed_noop true actionMap s (some cid) data hs⟩
  · rw [hstep]
    simp
  · rw [hstep]
    show count_success (st.callback_log ++ [⟨some cid, tid, "success"⟩]) cid = 1
    unfold count_success at hlog ⊢
    rw [List.filter_append, List.length_append, hlog]
    simp
  · rw [hstep]
    simp only [is_callback_processed]
    rw [if_neg (by simp [hcid])]
    exact load_contains _ ⟨some cid, tid, "success"⟩ cid
      (List.mem_append_right _ (by simp)) rfl rfl hcid

/-- C1 witness: three replays of one concrete chat-button callback yield a
single status application. -/
theorem handle_callback_replay_at_most_once_witness :
    ((fun s => handle_callback true [("1", CallbackAction.mk "ВЫПОЛНЕНО" none none)]
        s (some "cb1") "s:t1:1")^[3] (SvcState.mk [] [] [])).applied.length
      = (SvcState.mk [] [] []).applied.length + 1 :=
  (handle_callback_replay_at_most_once
      [("1", CallbackAction.mk "ВЫПОЛНЕНО" none none)] (SvcState.mk [] [] [])
      "cb1" "t1" "1" "s:t1:1" (CallbackAction.mk "ВЫПОЛНЕНО" none none) 3
      (by decide) (by decide) (by decide) (by decide) (by decide) (by decide)).1

end ClickupReminders
